import Mathlib

/-!
Verification development for the options-trading strategy engine
(`kite_wrapper/strategy.py`, `kite_wrapper/base_strategy.py`).

Prices and point-distances are modelled as exact rationals.  Python's
`round` rounds half to even; `StrategyEngine._round_tick(p)` computes
`round(round(p / 0.05) * 0.05, 2)`, which over exact arithmetic equals
`roundHalfEven (20 * p) / 20` (a multiple of `1/20 = 0.05` already has at
most two decimals, so the outer 2-decimal rounding is the identity).
Broker interactions (order placement, fill polling, cancellation) are
modelled by explicit environment records describing the broker's
responses, and the engine's outgoing requests are collected in an
`Action` list.
-/

namespace Trading

/-- Round half to even (Python `round` on exact rationals). -/
def rndHalfEven (q : ℚ) : ℤ :=
  if q - (⌊q⌋ : ℚ) < 1/2 then ⌊q⌋
  else if 1/2 < q - (⌊q⌋ : ℚ) then ⌊q⌋ + 1
  else if ⌊q⌋ % 2 = 0 then ⌊q⌋ else ⌊q⌋ + 1

theorem rndHalfEven_intCast (n : ℤ) : rndHalfEven (n : ℚ) = n := by
  simp [rndHalfEven]

theorem rndHalfEven_le (q : ℚ) : (rndHalfEven q : ℚ) ≤ q + 1/2 := by
  unfold rndHalfEven
  have h0 : (⌊q⌋ : ℚ) ≤ q := Int.floor_le q
  have h1 : q - (⌊q⌋ : ℚ) < 1 := by
    have := Int.lt_floor_add_one q
    linarith
  split
  · linarith
  · split
    · push_cast
      linarith
    · split
      · linarith
      · push_cast
        rename_i h2 h3 _
        have : q - (⌊q⌋ : ℚ) = 1/2 := le_antisymm (not_lt.mp h3) (not_lt.mp h2)
        linarith

theorem le_rndHalfEven (q : ℚ) : q - 1/2 ≤ (rndHalfEven q : ℚ) := by
  unfold rndHalfEven
  have h0 : (⌊q⌋ : ℚ) ≤ q := Int.floor_le q
  have h1 : q - (⌊q⌋ : ℚ) < 1 := by
    have := Int.lt_floor_add_one q
    linarith
  split
  · rename_i h2
    linarith
  · split
    · push_cast
      linarith
    · split
      · rename_i h2 h3 _
        have : q - (⌊q⌋ : ℚ) = 1/2 := le_antisymm (not_lt.mp h3) (not_lt.mp h2)
        linarith
      · push_cast
        linarith

theorem rndHalfEven_mono {p q : ℚ} (h : p ≤ q) : rndHalfEven p ≤ rndHalfEven q := by
  by_contra hlt
  push_neg at hlt
  have hint : rndHalfEven q + 1 ≤ rndHalfEven p := hlt
  have h1 : (rndHalfEven p : ℚ) ≤ p + 1/2 := rndHalfEven_le p
  have h2 : q - 1/2 ≤ (rndHalfEven q : ℚ) := le_rndHalfEven q
  have hcast : (rndHalfEven q : ℚ) + 1 ≤ (rndHalfEven p : ℚ) := by exact_mod_cast hint
  have hpq : q ≤ p := by linarith
  have heq : p = q := le_antisymm h hpq
  rw [heq] at hlt
  exact lt_irrefl _ hlt

/-- `StrategyEngine._round_tick`: round to the nearest 0.05 tick. -/
def roundTick (p : ℚ) : ℚ :=
  (rndHalfEven (p * 20) : ℚ) / 20

/-- Python `round(x, 2)` on exact rationals (used for P&L figures). -/
def round2 (q : ℚ) : ℚ :=
  (rndHalfEven (q * 100) : ℚ) / 100

/-- A price that is an exact multiple of the 0.05 tick. -/
def isTick (x : ℚ) : Prop := ∃ n : ℤ, x = (n : ℚ) / 20

theorem roundTick_isTick (p : ℚ) : isTick (roundTick p) :=
  ⟨rndHalfEven (p * 20), rfl⟩

theorem roundTick_eq_self {p : ℚ} (h : isTick p) : roundTick p = p := by
  obtain ⟨n, rfl⟩ := h
  have h20 : ((n : ℚ) / 20) * 20 = (n : ℚ) := by ring
  rw [roundTick, h20, rndHalfEven_intCast]

theorem roundTick_mono {p q : ℚ} (h : p ≤ q) : roundTick p ≤ roundTick q := by
  have := rndHalfEven_mono (show p * 20 ≤ q * 20 by linarith)
  have hc : (rndHalfEven (p * 20) : ℚ) ≤ (rndHalfEven (q * 20) : ℚ) := by exact_mod_cast this
  unfold roundTick
  linarith

theorem roundTick_le_of_isTick {p : ℚ} {d : ℚ} (hp : isTick p) (hd : 0 ≤ d) :
    roundTick (p - d) ≤ p := by
  calc roundTick (p - d) ≤ roundTick p := roundTick_mono (by linarith)
    _ = p := roundTick_eq_self hp

theorem le_roundTick_of_isTick {p : ℚ} {d : ℚ} (hp : isTick p) (hd : 0 ≤ d) :
    p ≤ roundTick (p + d) := by
  calc p = roundTick p := (roundTick_eq_self hp).symm
    _ ≤ roundTick (p + d) := roundTick_mono (by linarith)

/-- `StrategySettings` (strategy.py).  Floats are exact rationals here. -/
structure StrategySettings where
  enabled : Bool := false
  start_time : String := "10:00"
  stop_time : String := "15:15"
  sl_points : ℚ := 10
  target_points : ℚ := 10
  quantity : ℤ := 0
  product : String := "NRML"
  target_premium : ℚ := 1000
deriving DecidableEq, Repr

/-- `ActivePosition` (strategy.py). -/
structure ActivePosition where
  direction : String := ""
  entry_price : ℚ := 0
  sl_price : ℚ := 0
  target_price : ℚ := 0
  sl_order_id : String := ""
  order_id : String := ""
  entry_time : String := ""
  remaining_lots : ℤ := 0
deriving DecidableEq, Repr

/-- `TradeRecord` (strategy.py). -/
structure TradeRecord where
  direction : String := ""
  entry_price : ℚ := 0
  exit_price : ℚ := 0
  entry_time : String := ""
  exit_time : String := ""
  pnl : ℚ := 0
  quantity : ℤ := 0
  date : String := ""
  symbol : String := ""
deriving DecidableEq, Repr

/-- `StrategyState` (strategy.py).  The policy scratch dictionary is an
opaque string-keyed map, modelled as an association list.  Process-local
fields of the engine object (`_running`, `_pending_direction`, ...) are
attributes of `StrategyEngine`, not of this record, mirroring the source. -/
structure StrategyState where
  settings : StrategySettings := {}
  engine_status : String := "STOPPED"
  status_message : String := ""
  trading_symbol : String := ""
  instrument_token : ℤ := 0
  lot_size : ℤ := 0
  active_position : Option ActivePosition := none
  trades_today : List TradeRecord := []
  total_pnl : ℚ := 0
  current_ltp : ℚ := 0
  last_date : String := ""
  strategy_name : String := "sar"
  strategy_data : List (String × String) := []
deriving DecidableEq, Repr

/-- The JSON document produced by `_state_to_dict`.  Each top-level key may
be absent (`none`), which is what `_state_from_dict`'s `d.get(key, default)`
reads through; nested dataclass dictionaries are represented by the
records themselves since `asdict`/constructor are mutually inverse on flat
dataclasses.  A JSON-null `active_position` and a missing key are both
falsy for `if d.get("active_position")`, so one `Option` covers both. -/
structure StateDict where
  settings : Option StrategySettings
  engine_status : Option String
  status_message : Option String
  trading_symbol : Option String
  instrument_token : Option ℤ
  lot_size : Option ℤ
  active_position : Option ActivePosition
  trades_today : Option (List TradeRecord)
  total_pnl : Option ℚ
  current_ltp : Option ℚ
  last_date : Option String
  strategy_name : Option String
  strategy_data : Option (List (String × String))
deriving DecidableEq, Repr

/-- `_state_to_dict` (strategy.py): every key is emitted. -/
def stateToDict (s : StrategyState) : StateDict :=
  { settings := some s.settings
    engine_status := some s.engine_status
    status_message := some s.status_message
    trading_symbol := some s.trading_symbol
    instrument_token := some s.instrument_token
    lot_size := some s.lot_size
    active_position := s.active_position
    trades_today := some s.trades_today
    total_pnl := some s.total_pnl
    current_ltp := some s.current_ltp
    last_date := some s.last_date
    strategy_name := some s.strategy_name
    strategy_data := some s.strategy_data }

/-- `_state_from_dict` (strategy.py): missing keys fall back to the
`StrategyState()` defaults used by the source (`d.get(key, default)`). -/
def stateFromDict (d : StateDict) : StrategyState :=
  { settings := d.settings.getD {}
    engine_status := d.engine_status.getD "STOPPED"
    status_message := d.status_message.getD ""
    trading_symbol := d.trading_symbol.getD ""
    instrument_token := d.instrument_token.getD 0
    lot_size := d.lot_size.getD 0
    active_position := d.active_position
    trades_today := d.trades_today.getD []
    total_pnl := d.total_pnl.getD 0
    current_ltp := d.current_ltp.getD 0
    last_date := d.last_date.getD ""
    strategy_name := d.strategy_name.getD "sar"
    strategy_data := d.strategy_data.getD [] }

/-- Day-rollover core of `_load_state` (strategy.py): after parsing the
snapshot, if the stored date is not today's date the per-day fields are
reset and the engine is marked stopped; settings, lot size and the active
strategy name are kept. -/
def rolloverState (s : StrategyState) (today : String) : StrategyState :=
  if s.last_date ≠ today then
    { s with trades_today := []
             total_pnl := 0
             active_position := none
             trading_symbol := ""
             instrument_token := 0
             strategy_data := []
             last_date := today
             engine_status := "STOPPED" }
  else s

/-- One target-level shift for a `SELL` position (`_handle_tick` loop body):
both target and stop-loss move down by the configured distances, each
tick-rounded. -/
def sellStep (tgtPts slPts : ℚ) (ts : ℚ × ℚ) : ℚ × ℚ :=
  (roundTick (ts.1 - tgtPts), roundTick (ts.2 - slPts))

/-- One target-level shift for a `BUY` position. -/
def buyStep (tgtPts slPts : ℚ) (ts : ℚ × ℚ) : ℚ × ℚ :=
  (roundTick (ts.1 + tgtPts), roundTick (ts.2 + slPts))

/-- The `while ltp <= pos.target_price` loop of `_handle_tick` for `SELL`,
returning the new target, new stop-loss and the number of levels crossed.
The source loop is unbounded; `fuel` bounds the recursion, and the
theorems below hold for every fuel value, hence for any terminating run. -/
def trailSell (tgtPts slPts ltp : ℚ) : ℕ → ℚ → ℚ → ℚ × ℚ × ℕ
  | 0, t, s => (t, s, 0)
  | fuel + 1, t, s =>
    if ltp ≤ t then
      let r := trailSell tgtPts slPts ltp fuel (roundTick (t - tgtPts)) (roundTick (s - slPts))
      (r.1, r.2.1, r.2.2 + 1)
    else (t, s, 0)

/-- The `while ltp >= pos.target_price` loop of `_handle_tick` for `BUY`. -/
def trailBuy (tgtPts slPts ltp : ℚ) : ℕ → ℚ → ℚ → ℚ × ℚ × ℕ
  | 0, t, s => (t, s, 0)
  | fuel + 1, t, s =>
    if t ≤ ltp then
      let r := trailBuy tgtPts slPts ltp fuel (roundTick (t + tgtPts)) (roundTick (s + slPts))
      (r.1, r.2.1, r.2.2 + 1)
    else (t, s, 0)

/-- Result of `BaseStrategy.on_target_hit`: `{"action": "trail"}` or
`{"action": "partial_exit", "exit_lots": N}`. -/
inductive TargetDecision where
  | trail : TargetDecision
  | partialExit (exitLots : ℤ) : TargetDecision
deriving DecidableEq, Repr

/-- The `for _ in range(targets_crossed)` decision loop of `_handle_tick`:
the policy is consulted once per level crossed (modelled as a function of
the call index and the current remaining-lot count); a `partial_exit`
decision is applied only while more than one lot remains, and the exited
count is capped at `remaining_lots - 1`.  Returns the new remaining-lot
count and the accumulated `partial_exits`. -/
def runTargetDecisions (policy : ℕ → ℤ → TargetDecision) :
    ℕ → ℕ → ℤ → ℤ → ℤ × ℤ
  | _, 0, rem, acc => (rem, acc)
  | idx, n + 1, rem, acc =>
    match policy idx rem with
    | TargetDecision.partialExit el =>
      if 1 < rem then
        runTargetDecisions policy (idx + 1) n (rem - min el (rem - 1)) (acc + min el (rem - 1))
      else
        runTargetDecisions policy (idx + 1) n rem acc
    | TargetDecision.trail => runTargetDecisions policy (idx + 1) n rem acc

/-- `_handle_tick` (strategy.py), for an open position: trail target and
stop-loss past every crossed level, consult the policy once per level,
accumulate deferred partial exits, and—only when at least one level was
crossed and no partial exit resulted—request a modification of the
protective order to the new stop-loss (the returned `Option` is the
`modify_order` call made outside the lock; `None` sl-order ids and empty
strings are both falsy in the source guard). -/
def handleTick (tgtPts slPts : ℚ) (policy : ℕ → ℤ → TargetDecision)
    (pos : ActivePosition) (pending : ℤ) (ltp : ℚ) (fuel : ℕ) :
    ActivePosition × ℤ × Option (String × ℚ) :=
  let r :=
    if pos.direction = "SELL" then trailSell tgtPts slPts ltp fuel pos.target_price pos.sl_price
    else if pos.direction = "BUY" then trailBuy tgtPts slPts ltp fuel pos.target_price pos.sl_price
    else (pos.target_price, pos.sl_price, 0)
  let dec := runTargetDecisions policy 0 r.2.2 pos.remaining_lots 0
  ({ pos with target_price := r.1, sl_price := r.2.1, remaining_lots := dec.1 },
   if 0 < r.2.2 then pending + dec.2 else pending,
   if 0 < r.2.2 ∧ dec.2 = 0 ∧ pos.sl_order_id ≠ "" then some (pos.sl_order_id, r.2.1) else none)

/-- A sequence of price ticks fed through `_handle_tick` (each with its own
loop fuel), threading the position and the pending-partial-exit counter. -/
def runTicks (tgtPts slPts : ℚ) (policy : ℕ → ℤ → TargetDecision) :
    ActivePosition × ℤ → List (ℚ × ℕ) → ActivePosition × ℤ
  | x, [] => x
  | (pos, pending), (ltp, fuel) :: rest =>
    let r := handleTick tgtPts slPts policy pos pending ltp fuel
    runTicks tgtPts slPts policy (r.1, r.2.1) rest

theorem trailSell_iterate (tgtPts slPts ltp : ℚ) (fuel : ℕ) :
    ∀ t s : ℚ,
      ((trailSell tgtPts slPts ltp fuel t s).1, (trailSell tgtPts slPts ltp fuel t s).2.1)
        = (sellStep tgtPts slPts)^[(trailSell tgtPts slPts ltp fuel t s).2.2] (t, s) := by
  induction fuel with
  | zero => intro t s; rfl
  | succ n ih =>
    intro t s
    by_cases h : ltp ≤ t
    · simp only [trailSell, if_pos h]
      rw [Function.iterate_succ_apply]
      exact ih (roundTick (t - tgtPts)) (roundTick (s - slPts))
    · simp only [trailSell, if_neg h]
      rfl

theorem trailBuy_iterate (tgtPts slPts ltp : ℚ) (fuel : ℕ) :
    ∀ t s : ℚ,
      ((trailBuy tgtPts slPts ltp fuel t s).1, (trailBuy tgtPts slPts ltp fuel t s).2.1)
        = (buyStep tgtPts slPts)^[(trailBuy tgtPts slPts ltp fuel t s).2.2] (t, s) := by
  induction fuel with
  | zero => intro t s; rfl
  | succ n ih =>
    intro t s
    by_cases h : t ≤ ltp
    · simp only [trailBuy, if_pos h]
      rw [Function.iterate_succ_apply]
      exact ih (roundTick (t + tgtPts)) (roundTick (s + slPts))
    · simp only [trailBuy, if_neg h]
      rfl

theorem trailSell_le (tgtPts slPts ltp : ℚ) (h1 : 0 ≤ tgtPts) (h2 : 0 ≤ slPts) (fuel : ℕ) :
    ∀ t s : ℚ, isTick t → isTick s →
      (trailSell tgtPts slPts ltp fuel t s).1 ≤ t ∧
      (trailSell tgtPts slPts ltp fuel t s).2.1 ≤ s ∧
      isTick (trailSell tgtPts slPts ltp fuel t s).1 ∧
      isTick (trailSell tgtPts slPts ltp fuel t s).2.1 := by
  induction fuel with
  | zero => intro t s ht hs; exact ⟨le_refl t, le_refl s, ht, hs⟩
  | succ n ih =>
    intro t s ht hs
    by_cases h : ltp ≤ t
    · simp only [trailSell, if_pos h]
      obtain ⟨ha, hb, hc, hd⟩ := ih (roundTick (t - tgtPts)) (roundTick (s - slPts))
        (roundTick_isTick _) (roundTick_isTick _)
      exact ⟨le_trans ha (roundTick_le_of_isTick ht h1),
             le_trans hb (roundTick_le_of_isTick hs h2), hc, hd⟩
    · simp only [trailSell, if_neg h]
      exact ⟨le_refl t, le_refl s, ht, hs⟩

theorem trailBuy_ge (tgtPts slPts ltp : ℚ) (h1 : 0 ≤ tgtPts) (h2 : 0 ≤ slPts) (fuel : ℕ) :
    ∀ t s : ℚ, isTick t → isTick s →
      t ≤ (trailBuy tgtPts slPts ltp fuel t s).1 ∧
      s ≤ (trailBuy tgtPts slPts ltp fuel t s).2.1 ∧
      isTick (trailBuy tgtPts slPts ltp fuel t s).1 ∧
      isTick (trailBuy tgtPts slPts ltp fuel t s).2.1 := by
  induction fuel with
  | zero => intro t s ht hs; exact ⟨le_refl t, le_refl s, ht, hs⟩
  | succ n ih =>
    intro t s ht hs
    by_cases h : t ≤ ltp
    · simp only [trailBuy, if_pos h]
      obtain ⟨ha, hb, hc, hd⟩ := ih (roundTick (t + tgtPts)) (roundTick (s + slPts))
        (roundTick_isTick _) (roundTick_isTick _)
      exact ⟨le_trans (le_roundTick_of_isTick ht h1) ha,
             le_trans (le_roundTick_of_isTick hs h2) hb, hc, hd⟩
    · simp only [trailBuy, if_neg h]
      exact ⟨le_refl t, le_refl s, ht, hs⟩

theorem handleTick_sell_fields (tgtPts slPts : ℚ) (policy : ℕ → ℤ → TargetDecision)
    (pos : ActivePosition) (pending : ℤ) (ltp : ℚ) (fuel : ℕ)
    (hdir : pos.direction = "SELL") :
    (handleTick tgtPts slPts policy pos pending ltp fuel).1.target_price
        = (trailSell tgtPts slPts ltp fuel pos.target_price pos.sl_price).1 ∧
    (handleTick tgtPts slPts policy pos pending ltp fuel).1.sl_price
        = (trailSell tgtPts slPts ltp fuel pos.target_price pos.sl_price).2.1 := by
  simp only [handleTick, hdir]
  exact ⟨rfl, rfl⟩

theorem handleTick_buy_fields (tgtPts slPts : ℚ) (policy : ℕ → ℤ → TargetDecision)
    (pos : ActivePosition) (pending : ℤ) (ltp : ℚ) (fuel : ℕ)
    (hdir : pos.direction = "BUY") :
    (handleTick tgtPts slPts policy pos pending ltp fuel).1.target_price
        = (trailBuy tgtPts slPts ltp fuel pos.target_price pos.sl_price).1 ∧
    (handleTick tgtPts slPts policy pos pending ltp fuel).1.sl_price
        = (trailBuy tgtPts slPts ltp fuel pos.target_price pos.sl_price).2.1 := by
  simp only [handleTick, hdir]
  exact ⟨rfl, rfl⟩

theorem handleTick_direction (tgtPts slPts : ℚ) (policy : ℕ → ℤ → TargetDecision)
    (pos : ActivePosition) (pending : ℤ) (ltp : ℚ) (fuel : ℕ) :
    (handleTick tgtPts slPts policy pos pending ltp fuel).1.direction = pos.direction :=
  rfl

/-- Single-tick trailing invariant for a `SELL` position: direction kept,
target and stop-loss are non-increasing (each by the same mechanism), and
both stay on the 0.05 grid. -/
theorem handleTick_sell_inv (tgtPts slPts : ℚ) (policy : ℕ → ℤ → TargetDecision)
    (pos : ActivePosition) (pending : ℤ) (ltp : ℚ) (fuel : ℕ)
    (hdir : pos.direction = "SELL") (h1 : 0 ≤ tgtPts) (h2 : 0 ≤ slPts)
    (ht : isTick pos.target_price) (hs : isTick pos.sl_price) :
    (handleTick tgtPts slPts policy pos pending ltp fuel).1.direction = "SELL" ∧
    (handleTick tgtPts slPts policy pos pending ltp fuel).1.target_price ≤ pos.target_price ∧
    (handleTick tgtPts slPts policy pos pending ltp fuel).1.sl_price ≤ pos.sl_price ∧
    isTick (handleTick tgtPts slPts policy pos pending ltp fuel).1.target_price ∧
    isTick (handleTick tgtPts slPts policy pos pending ltp fuel).1.sl_price := by
  obtain ⟨he1, he2⟩ := handleTick_sell_fields tgtPts slPts policy pos pending ltp fuel hdir
  obtain ⟨ha, hb, hc, hd⟩ :=
    trailSell_le tgtPts slPts ltp h1 h2 fuel pos.target_price pos.sl_price ht hs
  refine ⟨?_, ?_, ?_, ?_, ?_⟩
  · rw [handleTick_direction]; exact hdir
  · rw [he1]; exact ha
  · rw [he2]; exact hb
  · rw [he1]; exact hc
  · rw [he2]; exact hd

/-- Single-tick trailing invariant for a `BUY` position. -/
theorem handleTick_buy_inv (tgtPts slPts : ℚ) (policy : ℕ → ℤ → TargetDecision)
    (pos : ActivePosition) (pending : ℤ) (ltp : ℚ) (fuel : ℕ)
    (hdir : pos.direction = "BUY") (h1 : 0 ≤ tgtPts) (h2 : 0 ≤ slPts)
    (ht : isTick pos.target_price) (hs : isTick pos.sl_price) :
    (handleTick tgtPts slPts policy pos pending ltp fuel).1.direction = "BUY" ∧
    pos.target_price ≤ (handleTick tgtPts slPts policy pos pending ltp fuel).1.target_price ∧
    pos.sl_price ≤ (handleTick tgtPts slPts policy pos pending ltp fuel).1.sl_price ∧
    isTick (handleTick tgtPts slPts policy pos pending ltp fuel).1.target_price ∧
    isTick (handleTick tgtPts slPts policy pos pending ltp fuel).1.sl_price := by
  obtain ⟨he1, he2⟩ := handleTick_buy_fields tgtPts slPts policy pos pending ltp fuel hdir
  obtain ⟨ha, hb, hc, hd⟩ :=
    trailBuy_ge tgtPts slPts ltp h1 h2 fuel pos.target_price pos.sl_price ht hs
  refine ⟨?_, ?_, ?_, ?_, ?_⟩
  · rw [handleTick_direction]; exact hdir
  · rw [he1]; exact ha
  · rw [he2]; exact hb
  · rw [he1]; exact hc
  · rw [he2]; exact hd

theorem runTicks_sell_le (tgtPts slPts : ℚ) (policy : ℕ → ℤ → TargetDecision)
    (h1 : 0 ≤ tgtPts) (h2 : 0 ≤ slPts) :
    ∀ (ticks : List (ℚ × ℕ)) (pos : ActivePosition) (pending : ℤ),
      pos.direction = "SELL" → isTick pos.target_price → isTick pos.sl_price →
      (runTicks tgtPts slPts policy (pos, pending) ticks).1.target_price ≤ pos.target_price ∧
      (runTicks tgtPts slPts policy (pos, pending) ticks).1.sl_price ≤ pos.sl_price := by
  intro ticks
  induction ticks with
  | nil => intro pos pending _ _ _; exact ⟨le_refl _, le_refl _⟩
  | cons tk rest ih =>
    intro pos pending hdir ht hs
    obtain ⟨hd, hta, hsa, htt, hts⟩ :=
      handleTick_sell_inv tgtPts slPts policy pos pending tk.1 tk.2 hdir h1 h2 ht hs
    obtain ⟨ra, rb⟩ := ih (handleTick tgtPts slPts policy pos pending tk.1 tk.2).1
      (handleTick tgtPts slPts policy pos pending tk.1 tk.2).2.1 hd htt hts
    constructor
    · calc (runTicks tgtPts slPts policy
              ((handleTick tgtPts slPts policy pos pending tk.1 tk.2).1,
               (handleTick tgtPts slPts policy pos pending tk.1 tk.2).2.1) rest).1.target_price
          ≤ (handleTick tgtPts slPts policy pos pending tk.1 tk.2).1.target_price := ra
        _ ≤ pos.target_price := hta
    · calc (runTicks tgtPts slPts policy
              ((handleTick tgtPts slPts policy pos pending tk.1 tk.2).1,
               (handleTick tgtPts slPts policy pos pending tk.1 tk.2).2.1) rest).1.sl_price
          ≤ (handleTick tgtPts slPts policy pos pending tk.1 tk.2).1.sl_price := rb
        _ ≤ pos.sl_price := hsa

theorem runTicks_buy_ge (tgtPts slPts : ℚ) (policy : ℕ → ℤ → TargetDecision)
    (h1 : 0 ≤ tgtPts) (h2 : 0 ≤ slPts) :
    ∀ (ticks : List (ℚ × ℕ)) (pos : ActivePosition) (pending : ℤ),
      pos.direction = "BUY" → isTick pos.target_price → isTick pos.sl_price →
      pos.target_price ≤ (runTicks tgtPts slPts policy (pos, pending) ticks).1.target_price ∧
      pos.sl_price ≤ (runTicks tgtPts slPts policy (pos, pending) ticks).1.sl_price := by
  intro ticks
  induction ticks with
  | nil => intro pos pending _ _ _; exact ⟨le_refl _, le_refl _⟩
  | cons tk rest ih =>
    intro pos pending hdir ht hs
    obtain ⟨hd, hta, hsa, htt, hts⟩ :=
      handleTick_buy_inv tgtPts slPts policy pos pending tk.1 tk.2 hdir h1 h2 ht hs
    obtain ⟨ra, rb⟩ := ih (handleTick tgtPts slPts policy pos pending tk.1 tk.2).1
      (handleTick tgtPts slPts policy pos pending tk.1 tk.2).2.1 hd htt hts
    constructor
    · calc pos.target_price
          ≤ (handleTick tgtPts slPts policy pos pending tk.1 tk.2).1.target_price := hta
        _ ≤ _ := ra
    · calc pos.sl_price
          ≤ (handleTick tgtPts slPts policy pos pending tk.1 tk.2).1.sl_price := hsa
        _ ≤ _ := rb

theorem runTargetDecisions_skip (policy : ℕ → ℤ → TargetDecision) :
    ∀ (n idx : ℕ) (rem acc : ℤ), rem ≤ 1 →
      runTargetDecisions policy idx n rem acc = (rem, acc) := by
  intro n
  induction n with
  | zero => intro idx rem acc _; rfl
  | succ m ih =>
    intro idx rem acc h
    unfold runTargetDecisions
    cases policy idx rem with
    | trail => exact ih (idx + 1) rem acc h
    | partialExit el =>
      dsimp only
      rw [if_neg (by omega)]
      exact ih (idx + 1) rem acc h

theorem runTargetDecisions_lots_ge_one (policy : ℕ → ℤ → TargetDecision) :
    ∀ (n idx : ℕ) (rem acc : ℤ), 1 ≤ rem →
      1 ≤ (runTargetDecisions policy idx n rem acc).1 := by
  intro n
  induction n with
  | zero => intro idx rem acc h; exact h
  | succ m ih =>
    intro idx rem acc h
    unfold runTargetDecisions
    cases policy idx rem with
    | trail => exact ih (idx + 1) rem acc h
    | partialExit el =>
      dsimp only
      by_cases hgt : 1 < rem
      · rw [if_pos hgt]
        refine ih (idx + 1) _ _ ?_
        have := min_le_right el (rem - 1)
        omega
      · rw [if_neg hgt]
        exact ih (idx + 1) rem acc h

/-- C2: per price tick, target and stop-loss move only together and by the
same number `k` of level increments (each increment shifts by the
configured point distances, tick-rounded); for a `SELL` position they are
unchanged or decreased, for `BUY` unchanged or increased, and across any
sequence of ticks `SELL` targets/stops are non-increasing and `BUY`
targets/stops are non-decreasing (given non-negative configured points and
tick-aligned starting prices, as produced by entry). -/
theorem tick_trailing_coupled_monotone
    (tgtPts slPts : ℚ) (policy : ℕ → ℤ → TargetDecision)
    (pos : ActivePosition) (pending : ℤ) (ltp : ℚ) (fuel : ℕ)
    (ticks : List (ℚ × ℕ)) :
    (pos.direction = "SELL" →
      (∃ k : ℕ,
        ((handleTick tgtPts slPts policy pos pending ltp fuel).1.target_price,
         (handleTick tgtPts slPts policy pos pending ltp fuel).1.sl_price)
          = (sellStep tgtPts slPts)^[k] (pos.target_price, pos.sl_price)) ∧
      (0 ≤ tgtPts → 0 ≤ slPts → isTick pos.target_price → isTick pos.sl_price →
        (handleTick tgtPts slPts policy pos pending ltp fuel).1.target_price ≤ pos.target_price ∧
        (handleTick tgtPts slPts policy pos pending ltp fuel).1.sl_price ≤ pos.sl_price ∧
        (runTicks tgtPts slPts policy (pos, pending) ticks).1.target_price ≤ pos.target_price ∧
        (runTicks tgtPts slPts policy (pos, pending) ticks).1.sl_price ≤ pos.sl_price)) ∧
    (pos.direction = "BUY" →
      (∃ k : ℕ,
        ((handleTick tgtPts slPts policy pos pending ltp fuel).1.target_price,
         (handleTick tgtPts slPts policy pos pending ltp fuel).1.sl_price)
          = (buyStep tgtPts slPts)^[k] (pos.target_price, pos.sl_price)) ∧
      (0 ≤ tgtPts → 0 ≤ slPts → isTick pos.target_price → isTick pos.sl_price →
        pos.target_price ≤ (handleTick tgtPts slPts policy pos pending ltp fuel).1.target_price ∧
        pos.sl_price ≤ (handleTick tgtPts slPts policy pos pending ltp fuel).1.sl_price ∧
        pos.target_price ≤ (runTicks tgtPts slPts policy (pos, pending) ticks).1.target_price ∧
        pos.sl_price ≤ (runTicks tgtPts slPts policy (pos, pending) ticks).1.sl_price)) := by
  constructor
  · intro hdir
    obtain ⟨he1, he2⟩ := handleTick_sell_fields tgtPts slPts policy pos pending ltp fuel hdir
    constructor
    · refine ⟨(trailSell tgtPts slPts ltp fuel pos.target_price pos.sl_price).2.2, ?_⟩
      rw [he1, he2]
      exact trailSell_iterate tgtPts slPts ltp fuel pos.target_price pos.sl_price
    · intro h1 h2 ht hs
      obtain ⟨_, hta, hsa, _, _⟩ :=
        handleTick_sell_inv tgtPts slPts policy pos pending ltp fuel hdir h1 h2 ht hs
      obtain ⟨ra, rb⟩ := runTicks_sell_le tgtPts slPts policy h1 h2 ticks pos pending hdir ht hs
      exact ⟨hta, hsa, ra, rb⟩
  · intro hdir
    obtain ⟨he1, he2⟩ := handleTick_buy_fields tgtPts slPts policy pos pending ltp fuel hdir
    constructor
    · refine ⟨(trailBuy tgtPts slPts ltp fuel pos.target_price pos.sl_price).2.2, ?_⟩
      rw [he1, he2]
      exact trailBuy_iterate tgtPts slPts ltp fuel pos.target_price pos.sl_price
    · intro h1 h2 ht hs
      obtain ⟨_, hta, hsa, _, _⟩ :=
        handleTick_buy_inv tgtPts slPts policy pos pending ltp fuel hdir h1 h2 ht hs
      obtain ⟨ra, rb⟩ := runTicks_buy_ge tgtPts slPts policy h1 h2 ticks pos pending hdir ht hs
      exact ⟨hta, hsa, ra, rb⟩

/-- Scenario-B position: SELL entered at 100 with target 90 and stop 110. -/
def posScenarioA : ActivePosition :=
  { direction := "SELL", entry_price := 100, sl_price := 110, target_price := 90
    sl_order_id := "SL1", order_id := "O1", entry_time := "10:05:00", remaining_lots := 1 }

/-- A policy that always answers `{"action": "trail"}` (the default
`BaseStrategy.on_target_hit`). -/
def trailPolicy : ℕ → ℤ → TargetDecision := fun _ _ => TargetDecision.trail

theorem tick_trailing_coupled_monotone_witness :
    (handleTick 10 10 trailPolicy posScenarioA 0 85 30).1.target_price ≤ 90 ∧
    (handleTick 10 10 trailPolicy posScenarioA 0 85 30).1.sl_price ≤ 110 := by
  have h := (tick_trailing_coupled_monotone 10 10 trailPolicy posScenarioA 0 85 30 []).1 rfl
  have h2 := h.2 (by norm_num) (by norm_num) ⟨1800, by norm_num [posScenarioA]⟩
    ⟨2200, by norm_num [posScenarioA]⟩
  exact ⟨h2.1, h2.2.1⟩

/-- C8: the policy's `partial_exit` answer is honored only while more than
one lot remains (with at most one lot it is ignored and the lot count is
untouched), and when honored the exited count is capped at
`remaining_lots - 1`; hence tick handling preserves `remaining_lots ≥ 1`. -/
theorem tick_remaining_lots_floor
    (tgtPts slPts : ℚ) (policy : ℕ → ℤ → TargetDecision)
    (pos : ActivePosition) (pending : ℤ) (ltp : ℚ) (fuel : ℕ) :
    (pos.remaining_lots ≤ 1 →
      (handleTick tgtPts slPts policy pos pending ltp fuel).1.remaining_lots
        = pos.remaining_lots) ∧
    (1 ≤ pos.remaining_lots →
      1 ≤ (handleTick tgtPts slPts policy pos pending ltp fuel).1.remaining_lots) := by
  constructor
  · intro h
    show (runTargetDecisions policy 0 _ pos.remaining_lots 0).1 = pos.remaining_lots
    rw [runTargetDecisions_skip policy _ 0 pos.remaining_lots 0 h]
  · intro h
    show 1 ≤ (runTargetDecisions policy 0 _ pos.remaining_lots 0).1
    exact runTargetDecisions_lots_ge_one policy _ 0 pos.remaining_lots 0 h

/-- Scale-out style position holding 3 lots, and a policy that always asks
to exit one lot (`buy_scale_out` behaviour above one lot). -/
def posThreeLots : ActivePosition :=
  { direction := "SELL", entry_price := 100, sl_price := 110, target_price := 90
    sl_order_id := "SL1", order_id := "O1", entry_time := "10:05:00", remaining_lots := 3 }

def scaleOutPolicy : ℕ → ℤ → TargetDecision := fun _ _ => TargetDecision.partialExit 1

theorem tick_remaining_lots_floor_witness :
    1 ≤ (handleTick 10 10 scaleOutPolicy posThreeLots 0 65 30).1.remaining_lots :=
  (tick_remaining_lots_floor 10 10 scaleOutPolicy posThreeLots 0 65 30).2 (by decide)

/-- C6: when the stored date differs from today, reloading resets the
per-day fields (trades, P&L, position, instrument selection, policy
scratch data) and keeps settings, lot size and the strategy name. -/
theorem day_rollover_resets (s : StrategyState) (today : String)
    (h : s.last_date ≠ today) :
    (rolloverState s today).trades_today = [] ∧
    (rolloverState s today).total_pnl = 0 ∧
    (rolloverState s today).active_position = none ∧
    (rolloverState s today).trading_symbol = "" ∧
    (rolloverState s today).instrument_token = 0 ∧
    (rolloverState s today).strategy_data = [] ∧
    (rolloverState s today).settings = s.settings ∧
    (rolloverState s today).lot_size = s.lot_size ∧
    (rolloverState s today).strategy_name = s.strategy_name := by
  unfold rolloverState
  rw [if_pos h]
  exact ⟨rfl, rfl, rfl, rfl, rfl, rfl, rfl, rfl, rfl⟩

/-- A stored state from the previous trading day. -/
def yesterdayState : StrategyState :=
  { settings := { enabled := true, quantity := 3 }
    engine_status := "MARKET_CLOSED", status_message := "Market closed"
    trading_symbol := "NIFTY24DEC24000CE", instrument_token := 12345
    lot_size := 75
    active_position := some posScenarioA
    trades_today := [{ direction := "SELL", entry_price := 100, exit_price := 90
                       entry_time := "10:05:00", exit_time := "11:00:00", pnl := 750
                       quantity := 1, date := "2026-10-11", symbol := "NIFTY24DEC24000CE" }]
    total_pnl := 750, current_ltp := 90, last_date := "2026-10-11"
    strategy_name := "buy_scale_out", strategy_data := [("option_type", "CE")] }

theorem day_rollover_resets_witness :
    (rolloverState yesterdayState "2026-10-12").trades_today = [] ∧
    (rolloverState yesterdayState "2026-10-12").settings = yesterdayState.settings ∧
    (rolloverState yesterdayState "2026-10-12").lot_size = yesterdayState.lot_size ∧
    (rolloverState yesterdayState "2026-10-12").strategy_name = yesterdayState.strategy_name := by
  have h := day_rollover_resets yesterdayState "2026-10-12" (by decide)
  exact ⟨h.1, h.2.2.2.2.2.2.1, h.2.2.2.2.2.2.2.1, h.2.2.2.2.2.2.2.2⟩

/-- C7: serializing an `EngineState` with `_state_to_dict` and parsing the
result with `_state_from_dict` restores every persisted field; the running
flag and other process-local engine attributes are not part of the state
record at all. -/
theorem state_roundtrip (s : StrategyState) : stateFromDict (stateToDict s) = s := rfl

/-- An outgoing broker request issued by the engine (`place_order`,
`modify_order`, `cancel_order`, and the open-order cleanup sweep). -/
inductive Action where
  | cancelOpenOrders : Action
  | placeOrder (transaction_type : String) (quantity : ℤ) (order_type : String)
      (price : ℚ) (trigger_price : Option ℚ) : Action
  | modifyOrder (order_id : String) (trigger_price price : ℚ) : Action
  | cancelOrder (order_id : String) : Action
deriving DecidableEq, Repr

/-- Outcome of polling one order in `_get_fill_price`: `COMPLETE` with an
average price, a terminal `CANCELLED`/`REJECTED` status, or the poll
timeout (which cancels the pending order). -/
inductive FillOutcome where
  | filled (average_price : ℚ) : FillOutcome
  | rejected : FillOutcome
  | timeout : FillOutcome
deriving DecidableEq, Repr

/-- Python truthiness of an `Optional[str]` order id: `None` and the empty
string are both falsy. -/
def truthy : Option String → Bool
  | none => false
  | some s => s != ""

/-- `_get_fill_price`: returns the fill price on `COMPLETE`, `None` on a
terminal failure, and on timeout cancels the order and returns `None`. -/
def getFillPrice (order_id : String) (f : FillOutcome) : Option ℚ × List Action :=
  match f with
  | FillOutcome.filled p => (some p, [])
  | FillOutcome.rejected => (none, [])
  | FillOutcome.timeout => (none, [Action.cancelOrder order_id])

/-- `_place_entry_order`: an aggressive LIMIT order a 2-point buffer beyond
the last price in the trade's favour.  `quantity = 0` (Python falsy) means
"full position" `settings.quantity * lot_size`.  With no last price
available the attempt is abandoned before any request is issued; otherwise
the request is issued and `oid` is the broker's response (`none` models a
raised exception). -/
def placeEntryOrder (settings : StrategySettings) (lot_size : ℤ)
    (direction : String) (quantity : ℤ) (ltp : ℚ) (oid : Option String) :
    Option String × List Action :=
  let qty := if quantity = 0 then settings.quantity * lot_size else quantity
  if ltp ≤ 0 then (none, [])
  else
    let price := if direction = "SELL" then roundTick (ltp - 2) else roundTick (ltp + 2)
    (oid, [Action.placeOrder direction qty "LIMIT" price none])

/-- `_place_sl_order`: a stop-loss limit order on the opposite side of the
position, with a 10-point limit buffer beyond the trigger. -/
def placeSlOrder (settings : StrategySettings) (lot_size : ℤ)
    (direction : String) (trigger_price : ℚ) (quantity : ℤ) (oid : Option String) :
    Option String × List Action :=
  let qty := if quantity = 0 then settings.quantity * lot_size else quantity
  let trigger := roundTick trigger_price
  let sl_side := if direction = "SELL" then "BUY" else "SELL"
  let price := if sl_side = "BUY" then roundTick (trigger + 10) else roundTick (trigger - 10)
  (oid, [Action.placeOrder sl_side qty "SL" price (some trigger)])

/-- Broker responses consumed by one `_enter_position` attempt.  A single
`ltp` serves both `_get_ltp` calls of the attempt (the cached tick price,
unchanged within the sequential model). -/
structure EnterEnv where
  ltp : ℚ
  entryOrderId : Option String
  fill : FillOutcome
  slOrderId : Option String
  closeOrderId : Option String
  now_str : String
deriving DecidableEq, Repr

/-- `_enter_position` (strategy.py): cancel stale orders, place the entry
limit order, wait for its fill, compute stop-loss and target from the fill
price, place the protective SL order (flattening immediately and aborting
if that placement fails), and only then record the new `ActivePosition`
and clear the pending-partial-exit counter. -/
def enterPosition (s : StrategyState) (pending : ℤ) (direction : String)
    (env : EnterEnv) : StrategyState × ℤ × List Action :=
  let a0 := if s.trading_symbol ≠ "" then [Action.cancelOpenOrders] else []
  let entry := placeEntryOrder s.settings s.lot_size direction 0 env.ltp env.entryOrderId
  if truthy entry.1 = false then (s, pending, a0 ++ entry.2)
  else
    let fill := getFillPrice (entry.1.getD "") env.fill
    match fill.1 with
    | none => (s, pending, a0 ++ entry.2 ++ fill.2)
    | some fill_price =>
      let sl_price :=
        if direction = "SELL" then roundTick (fill_price + s.settings.sl_points)
        else roundTick (fill_price - s.settings.sl_points)
      let target_price :=
        if direction = "SELL" then roundTick (fill_price - s.settings.target_points)
        else roundTick (fill_price + s.settings.target_points)
      let slo := placeSlOrder s.settings s.lot_size direction sl_price 0 env.slOrderId
      if truthy slo.1 = false then
        let close_dir := if direction = "SELL" then "BUY" else "SELL"
        let closing := placeEntryOrder s.settings s.lot_size close_dir 0 env.ltp env.closeOrderId
        (s, pending, a0 ++ entry.2 ++ fill.2 ++ slo.2 ++ closing.2)
      else
        let pos : ActivePosition :=
          { direction := direction, entry_price := fill_price, sl_price := sl_price
            target_price := target_price, sl_order_id := slo.1.getD ""
            order_id := entry.1.getD "", entry_time := env.now_str
            remaining_lots := s.settings.quantity }
        ({ s with active_position := some pos }, 0, a0 ++ entry.2 ++ fill.2 ++ slo.2)

/-- Broker responses consumed by one `_execute_partial_exit` call. -/
structure PartialExitEnv where
  ltp : ℚ
  exitOrderId : Option String
  fill : FillOutcome
  newSlId : Option String
  now_str : String
  date_str : String
deriving DecidableEq, Repr

/-- `_record_partial_trade` (strategy.py): P&L for one exited lot
(`actual_qty = lot_size` contracts), appended without clearing the
position. -/
def recordPartialTrade (s : StrategyState) (direction : String)
    (entry_price exit_price : ℚ) (actual_qty : ℤ)
    (now_str date_str : String) : StrategyState :=
  let pnl :=
    if direction = "SELL" then (entry_price - exit_price) * (actual_qty : ℚ)
    else (exit_price - entry_price) * (actual_qty : ℚ)
  let trade : TradeRecord :=
    { direction := direction, entry_price := entry_price, exit_price := exit_price
      entry_time := "partial", exit_time := now_str, pnl := round2 pnl
      quantity := 1, date := date_str, symbol := s.trading_symbol }
  { s with trades_today := s.trades_today ++ [trade]
           total_pnl := round2 (s.total_pnl + pnl) }

/-- `_execute_partial_exit` (strategy.py): consume one pending partial
exit; cancel the current protective order; place a one-lot closing order.
If that placement fails, re-place the protective order for
`remaining_qty + lot_size` (the pre-reduction quantity) and restore the
lot count.  If the fill wait fails, re-place the protective order for
`remaining_qty` only, without touching the lot count.  On a fill, record
the partial trade and re-place the protective order for the reduced
quantity. -/
def executePartialExit (s : StrategyState) (pending : ℤ) (env : PartialExitEnv) :
    StrategyState × ℤ × List Action :=
  match s.active_position with
  | none => (s, pending, [])
  | some pos =>
    if pending ≤ 0 then (s, pending, [])
    else
      let pending' := pending - 1
      let new_trigger := pos.sl_price
      let remaining_qty := pos.remaining_lots * s.lot_size
      let a0 := [Action.cancelOrder pos.sl_order_id]
      let close_dir := if pos.direction = "SELL" then "BUY" else "SELL"
      let exit := placeEntryOrder s.settings s.lot_size close_dir s.lot_size env.ltp env.exitOrderId
      if truthy exit.1 = false then
        let slo := placeSlOrder s.settings s.lot_size pos.direction new_trigger
          (remaining_qty + s.lot_size) env.newSlId
        let pos' := { pos with sl_order_id := slo.1.getD "", remaining_lots := pos.remaining_lots + 1 }
        let s' := if truthy slo.1 then { s with active_position := some pos' } else s
        (s', pending', a0 ++ exit.2 ++ slo.2)
      else
        let fill := getFillPrice (exit.1.getD "") env.fill
        match fill.1 with
        | none =>
          let slo := placeSlOrder s.settings s.lot_size pos.direction new_trigger
            remaining_qty env.newSlId
          let pos' := { pos with sl_order_id := slo.1.getD "" }
          let s' := if truthy slo.1 then { s with active_position := some pos' } else s
          (s', pending', a0 ++ exit.2 ++ fill.2 ++ slo.2)
        | some fill_price =>
          let s1 := recordPartialTrade s pos.direction pos.entry_price fill_price
            s.lot_size env.now_str env.date_str
          let slo := placeSlOrder s.settings s.lot_size pos.direction new_trigger
            remaining_qty env.newSlId
          let upd : ActivePosition → ActivePosition := fun p => { p with sl_order_id := slo.1.getD "" }
          let s' :=
            if truthy slo.1 then { s1 with active_position := s1.active_position.map upd }
            else s1
          (s', pending', a0 ++ exit.2 ++ fill.2 ++ slo.2)

/-- `_close_position` (strategy.py): record the completed trade for the
remaining quantity and clear the active position.  A `remaining_lots` of 0
falls back to `settings.quantity` (backward compatibility). -/
def closePosition (s : StrategyState) (exit_price : ℚ)
    (now_str date_str : String) : StrategyState :=
  match s.active_position with
  | none => s
  | some pos =>
    let remaining_lots := if 0 < pos.remaining_lots then pos.remaining_lots else s.settings.quantity
    let remaining_qty := remaining_lots * s.lot_size
    let pnl :=
      if pos.direction = "SELL" then (pos.entry_price - exit_price) * (remaining_qty : ℚ)
      else (exit_price - pos.entry_price) * (remaining_qty : ℚ)
    let trade : TradeRecord :=
      { direction := pos.direction, entry_price := pos.entry_price, exit_price := exit_price
        entry_time := pos.entry_time, exit_time := now_str, pnl := round2 pnl
        quantity := remaining_lots, date := date_str, symbol := s.trading_symbol }
    { s with trades_today := s.trades_today ++ [trade]
             total_pnl := round2 (s.total_pnl + pnl)
             active_position := none }

/-- Broker responses consumed by one `_square_off` call. -/
structure SquareOffEnv where
  ltp : ℚ
  closeOrderId : Option String
  fill : FillOutcome
  now_str : String
  date_str : String
deriving DecidableEq, Repr

/-- `_square_off` (strategy.py): cancel the protective order, close the
remaining quantity with a market-favourable limit order, and record the
trade; if the closing order cannot be placed or confirmed filled, the
position is still cleared with a zero exit price. -/
def squareOff (s : StrategyState) (env : SquareOffEnv) : StrategyState × List Action :=
  match s.active_position with
  | none => (s, [])
  | some pos =>
    let a0 := if pos.sl_order_id ≠ "" then [Action.cancelOrder pos.sl_order_id] else []
    let remaining_lots := if 0 < pos.remaining_lots then pos.remaining_lots else s.settings.quantity
    let remaining_qty := remaining_lots * s.lot_size
    let close_dir := if pos.direction = "SELL" then "BUY" else "SELL"
    let closing := placeEntryOrder s.settings s.lot_size close_dir remaining_qty env.ltp env.closeOrderId
    if truthy closing.1 then
      let fill := getFillPrice (closing.1.getD "") env.fill
      match fill.1 with
      | some fill_price =>
        (closePosition s fill_price env.now_str env.date_str, a0 ++ closing.2 ++ fill.2)
      | none => (closePosition s 0 env.now_str env.date_str, a0 ++ closing.2 ++ fill.2)
    else (closePosition s 0 env.now_str env.date_str, a0 ++ closing.2)

/-- `StrategyEngine.stop` (strategy.py), after the loop thread has been
joined: square off any open position, then mark the engine stopped,
disable the settings flag and clear the selected instrument so the next
start re-runs selection. -/
def stopEngine (s : StrategyState) (env : SquareOffEnv) : StrategyState × List Action :=
  let r := if s.active_position.isSome then squareOff s env else (s, [])
  ({ r.1 with engine_status := "STOPPED"
              status_message := "Stopped by user"
              settings := { r.1.settings with enabled := false }
              trading_symbol := ""
              instrument_token := 0 }, r.2)

/-- C3: if the entry order fills but the protective-order placement fails,
the engine immediately issues a closing order in the opposite direction
for the full entry quantity and aborts: the state (in particular
`active_position`) is unchanged, so a filled entry is never recorded as an
open position without a protective order id. -/
theorem entry_sl_failure_flattens (s : StrategyState) (pending : ℤ)
    (direction : String) (env : EnterEnv) (fp : ℚ)
    (hid : truthy env.entryOrderId = true)
    (hfill : env.fill = FillOutcome.filled fp)
    (hsl : truthy env.slOrderId = false)
    (hltp : 0 < env.ltp) :
    (enterPosition s pending direction env).1 = s ∧
    (enterPosition s pending direction env).2.1 = pending ∧
    ∃ pr, Action.placeOrder (if direction = "SELL" then "BUY" else "SELL")
        (s.settings.quantity * s.lot_size) "LIMIT" pr none
        ∈ (enterPosition s pending direction env).2.2 := by
  have hltp' : ¬ env.ltp ≤ 0 := not_le.mpr hltp
  simp only [enterPosition, placeEntryOrder, placeSlOrder, getFillPrice,
    if_neg hltp', hfill, hid, hsl, Bool.true_eq_false, if_false, ite_false,
    reduceIte]
  refine ⟨trivial, trivial, ?_⟩
  refine ⟨if (if direction = "SELL" then "BUY" else "SELL") = "SELL"
            then roundTick (env.ltp - 2) else roundTick (env.ltp + 2), ?_⟩
  simp [List.mem_append]

/-- The success branch of `_enter_position` in closed form: the created
`ActivePosition` record. -/
theorem enterPosition_success (s : StrategyState) (pending : ℤ)
    (direction : String) (env : EnterEnv) (fp : ℚ)
    (hid : truthy env.entryOrderId = true)
    (hfill : env.fill = FillOutcome.filled fp)
    (hsl : truthy env.slOrderId = true)
    (hltp : 0 < env.ltp) :
    (enterPosition s pending direction env).1.active_position = some
      { direction := direction, entry_price := fp
        sl_price :=
          if direction = "SELL" then roundTick (fp + s.settings.sl_points)
          else roundTick (fp - s.settings.sl_points)
        target_price :=
          if direction = "SELL" then roundTick (fp - s.settings.target_points)
          else roundTick (fp + s.settings.target_points)
        sl_order_id := env.slOrderId.getD "", order_id := env.entryOrderId.getD ""
        entry_time := env.now_str, remaining_lots := s.settings.quantity } := by
  have hltp' : ¬ env.ltp ≤ 0 := not_le.mpr hltp
  simp only [enterPosition, placeEntryOrder, placeSlOrder, getFillPrice,
    if_neg hltp', hfill, hid, hsl, Bool.true_eq_false, if_false, reduceIte]

/-- C4: on a successful entry fill, stop-loss and target are the fill
price offset by the configured point distances, with opposite signs for
`SELL` versus `BUY`, each rounded to the 0.05 tick. -/
theorem entry_fill_sets_sl_target (s : StrategyState) (pending : ℤ)
    (direction : String) (env : EnterEnv) (fp : ℚ)
    (hid : truthy env.entryOrderId = true)
    (hfill : env.fill = FillOutcome.filled fp)
    (hsl : truthy env.slOrderId = true)
    (hltp : 0 < env.ltp) :
    ∃ p : ActivePosition,
      (enterPosition s pending direction env).1.active_position = some p ∧
      p.entry_price = fp ∧
      p.remaining_lots = s.settings.quantity ∧
      p.sl_order_id ≠ "" ∧
      (direction = "SELL" →
        p.sl_price = roundTick (fp + s.settings.sl_points) ∧
        p.target_price = roundTick (fp - s.settings.target_points)) ∧
      (direction ≠ "SELL" →
        p.sl_price = roundTick (fp - s.settings.sl_points) ∧
        p.target_price = roundTick (fp + s.settings.target_points)) := by
  have hne : env.slOrderId.getD "" ≠ "" := by
    cases hopt : env.slOrderId with
    | none => rw [hopt] at hsl; simp [truthy] at hsl
    | some v =>
      rw [hopt] at hsl
      simp only [truthy, bne_iff_ne, ne_eq, decide_eq_true_eq] at hsl
      simpa using hsl
  refine ⟨_, enterPosition_success s pending direction env fp hid hfill hsl hltp,
    rfl, rfl, hne, ?_, ?_⟩
  · intro hd
    exact ⟨by simp only [if_pos hd], by simp only [if_pos hd]⟩
  · intro hd
    exact ⟨by simp only [if_neg hd], by simp only [if_neg hd]⟩

/-- A state ready to enter: instrument selected, 1 lot of 75 contracts. -/
def stateReady : StrategyState :=
  { settings := { enabled := true, quantity := 1 }
    engine_status := "ACTIVE", status_message := "Trading NIFTY24DEC24000CE"
    trading_symbol := "NIFTY24DEC24000CE", instrument_token := 12345, lot_size := 75
    active_position := none, trades_today := [], total_pnl := 0
    current_ltp := 101, last_date := "2026-10-12", strategy_name := "sar"
    strategy_data := [] }

/-- Scenario-A broker responses: entry fills at 100, SL placement fails
(broker raises). -/
def envSlFails : EnterEnv :=
  { ltp := 101, entryOrderId := some "E1", fill := FillOutcome.filled 100
    slOrderId := none, closeOrderId := some "C1", now_str := "10:05:00" }

theorem entry_sl_failure_flattens_witness :
    (enterPosition stateReady 0 "SELL" envSlFails).1 = stateReady ∧
    ∃ pr, Action.placeOrder "BUY" (75 : ℤ) "LIMIT" pr none
        ∈ (enterPosition stateReady 0 "SELL" envSlFails).2.2 := by
  obtain ⟨h1, _, pr, hmem⟩ :=
    entry_sl_failure_flattens stateReady 0 "SELL" envSlFails 100 rfl rfl rfl
      (by norm_num [envSlFails])
  exact ⟨h1, pr, hmem⟩

/-- Scenario-A broker responses: entry fills at 100 and SL placement
succeeds. -/
def envScenarioA : EnterEnv :=
  { ltp := 101, entryOrderId := some "E1", fill := FillOutcome.filled 100
    slOrderId := some "S1", closeOrderId := none, now_str := "10:05:00" }

theorem entry_fill_sets_sl_target_witness :
    ∃ p : ActivePosition,
      (enterPosition stateReady 0 "SELL" envScenarioA).1.active_position = some p ∧
      p.sl_price = 110 ∧ p.target_price = 90 := by
  obtain ⟨p, hp, _, _, _, hsell, _⟩ :=
    entry_fill_sets_sl_target stateReady 0 "SELL" envScenarioA 100 rfl rfl rfl
      (by norm_num [envScenarioA])
  obtain ⟨h1, h2⟩ := hsell rfl
  refine ⟨p, hp, ?_, ?_⟩
  · rw [h1]
    show roundTick (100 + stateReady.settings.sl_points) = 110
    have : (100 : ℚ) + stateReady.settings.sl_points = 110 := by norm_num [stateReady]
    rw [this]
    exact roundTick_eq_self ⟨2200, by norm_num⟩
  · rw [h2]
    show roundTick (100 - stateReady.settings.target_points) = 90
    have : (100 : ℚ) - stateReady.settings.target_points = 90 := by norm_num [stateReady]
    rw [this]
    exact roundTick_eq_self ⟨1800, by norm_num⟩

/-- Position mid scale-out: 3 lots were reduced to 2 at trailing time, the
stop has been trailed to 105, and one partial exit is pending. -/
def posPartialExit : ActivePosition :=
  { direction := "SELL", entry_price := 100, sl_price := 105, target_price := 85
    sl_order_id := "SL1", order_id := "O1", entry_time := "10:05:00", remaining_lots := 2 }

def statePartialExit : StrategyState :=
  { settings := { enabled := true, quantity := 3 }
    engine_status := "ACTIVE", status_message := "Trading NIFTY24DEC24000CE"
    trading_symbol := "NIFTY24DEC24000CE", instrument_token := 12345, lot_size := 75
    active_position := some posPartialExit, trades_today := [], total_pnl := 0
    current_ltp := 100, last_date := "2026-10-12", strategy_name := "buy_scale_out"
    strategy_data := [] }

/-- Broker responses: the one-lot exit order places as `X1` but its fill
wait times out (so `_get_fill_price` cancels it); the SL re-placement
returns `SL2`. -/
def envPartialTimeout : PartialExitEnv :=
  { ltp := 100, exitOrderId := some "X1", fill := FillOutcome.timeout
    newSlId := some "SL2", now_str := "11:00:00", date_str := "2026-10-12" }

/-- C1 at the failing input: on a partial-exit fill timeout the code
re-places the protective order for the post-reduction quantity only
(150 = 2 lots x 75) and leaves `remaining_lots` at 2, even though the
timed-out exit order was cancelled and 3 lots are still held.  The claim
(and the placement-failure branch of the same function, which uses
`remaining_qty + lot_size` and `remaining_lots += 1`) requires quantity
225 and a restored count of 3. -/
theorem partial_exit_timeout_behaviour :
    (executePartialExit statePartialExit 1 envPartialTimeout).1.active_position
        = some { posPartialExit with sl_order_id := "SL2" } ∧
    (executePartialExit statePartialExit 1 envPartialTimeout).2.2
        = [Action.cancelOrder "SL1",
           Action.placeOrder "BUY" 75 "LIMIT" 102 none,
           Action.cancelOrder "X1",
           Action.placeOrder "BUY" 150 "SL" 115 (some 105)] := by
  constructor
  · norm_num [executePartialExit, placeEntryOrder, placeSlOrder, getFillPrice, truthy,
      statePartialExit, posPartialExit, envPartialTimeout, roundTick, rndHalfEven,
      (show ("X1" : String) ≠ "" by decide), (show ("SL2" : String) ≠ "" by decide),
      (show ("BUY" : String) ≠ "SELL" by decide)]
  · norm_num [executePartialExit, placeEntryOrder, placeSlOrder, getFillPrice, truthy,
      statePartialExit, posPartialExit, envPartialTimeout, roundTick, rndHalfEven,
      (show ("X1" : String) ≠ "" by decide), (show ("SL2" : String) ≠ "" by decide),
      (show ("BUY" : String) ≠ "SELL" by decide)]

/-- C10 counterexample state: one open SELL lot at entry 100. -/
def posAtStop : ActivePosition :=
  { direction := "SELL", entry_price := 100, sl_price := 110, target_price := 90
    sl_order_id := "SLX", order_id := "OX", entry_time := "10:05:00", remaining_lots := 1 }

def stateAtStop : StrategyState :=
  { settings := { enabled := true, quantity := 1 }
    engine_status := "ACTIVE", status_message := "Trading NIFTY24DEC24000CE"
    trading_symbol := "NIFTY24DEC24000CE", instrument_token := 12345, lot_size := 75
    active_position := some posAtStop, trades_today := [], total_pnl := 0
    current_ltp := 95, last_date := "2026-10-12", strategy_name := "sar"
    strategy_data := [] }

def envAtStop : SquareOffEnv :=
  { ltp := 95, closeOrderId := some "C9", fill := FillOutcome.filled 95
    now_str := "14:00:00", date_str := "2026-10-12" }

/-- C10 counterexample: stopping while a position is open squares it off
first, which appends the closing `TradeRecord` and changes `total_pnl`, so
the claim's "today's trades and total P&L are left unchanged" fails for
states with an open position. -/
theorem stop_trades_changed_counterexample :
    (stopEngine stateAtStop envAtStop).1.trades_today ≠ stateAtStop.trades_today ∧
    (stopEngine stateAtStop envAtStop).1.total_pnl ≠ stateAtStop.total_pnl := by
  constructor
  · intro h
    norm_num [stopEngine, squareOff, closePosition, placeEntryOrder, getFillPrice, truthy,
      stateAtStop, posAtStop, envAtStop,
      (show ("C9" : String) ≠ "" by decide), (show ("SLX" : String) ≠ "" by decide)] at h
  · intro h
    norm_num [stopEngine, squareOff, closePosition, placeEntryOrder, getFillPrice, truthy,
      stateAtStop, posAtStop, envAtStop, round2, rndHalfEven,
      (show ("C9" : String) ≠ "" by decide), (show ("SLX" : String) ≠ "" by decide)] at h

/-- C10 (amended): for every state with no open position, a stop request
ends with `STOPPED`, `enabled = false` and the instrument cleared, and
every other persisted field — the remaining settings, strategy name, lot
size, today's trades, total P&L, scratch data, date — is unchanged. -/
theorem stop_frame_effect (s : StrategyState) (env : SquareOffEnv)
    (h : s.active_position = none) :
    (stopEngine s env).1.engine_status = "STOPPED" ∧
    (stopEngine s env).1.status_message = "Stopped by user" ∧
    (stopEngine s env).1.settings.enabled = false ∧
    (stopEngine s env).1.trading_symbol = "" ∧
    (stopEngine s env).1.instrument_token = 0 ∧
    (stopEngine s env).1.settings = { s.settings with enabled := false } ∧
    (stopEngine s env).1.strategy_name = s.strategy_name ∧
    (stopEngine s env).1.lot_size = s.lot_size ∧
    (stopEngine s env).1.trades_today = s.trades_today ∧
    (stopEngine s env).1.total_pnl = s.total_pnl ∧
    (stopEngine s env).1.active_position = none ∧
    (stopEngine s env).1.strategy_data = s.strategy_data ∧
    (stopEngine s env).1.last_date = s.last_date ∧
    (stopEngine s env).2 = [] := by
  simp [stopEngine, h]

/-- A flat state (no open position) about to be stopped. -/
def stateFlat : StrategyState :=
  { settings := { enabled := true, quantity := 1 }
    engine_status := "ACTIVE", status_message := "Trading NIFTY24DEC24000CE"
    trading_symbol := "NIFTY24DEC24000CE", instrument_token := 12345, lot_size := 75
    active_position := none, trades_today := [], total_pnl := 375
    current_ltp := 95, last_date := "2026-10-12", strategy_name := "sar"
    strategy_data := [] }

theorem stop_frame_effect_witness :
    (stopEngine stateFlat envAtStop).1.engine_status = "STOPPED" ∧
    (stopEngine stateFlat envAtStop).1.settings.enabled = false ∧
    (stopEngine stateFlat envAtStop).1.trading_symbol = "" ∧
    (stopEngine stateFlat envAtStop).1.total_pnl = stateFlat.total_pnl := by
  obtain ⟨h1, _, h3, h4, _, _, _, _, _, h10, _⟩ :=
    stop_frame_effect stateFlat envAtStop rfl
  exact ⟨h1, h3, h4, h10⟩

/-- A calendar date (year, month, day), compared lexicographically. -/
structure Date where
  y : ℕ
  m : ℕ
  d : ℕ
deriving DecidableEq, Repr

/-- Strict `<` on dates. -/
def Date.ltb (a b : Date) : Bool :=
  a.y < b.y || (a.y = b.y && (a.m < b.m || (a.m = b.m && a.d < b.d)))

/-- `≤` on dates. -/
def Date.leb (a b : Date) : Bool :=
  a = b || Date.ltb a b

/-- One row of `client.kite.instruments("NFO")` as consumed by
`select_nifty_option`. -/
structure Instrument where
  name : String
  instrument_type : String
  expiry : Date
  strike : ℚ
  lot_size : ℤ
  instrument_token : ℤ
  tradingsymbol : String
deriving DecidableEq, Repr

/-- The `all_opts` list: NIFTY contracts of the requested option type with
expiry at least `minExpiry` (= today + 30 days in the source). -/
def niftyAllOpts (instruments : List Instrument) (minExpiry : Date)
    (option_type : String) : List Instrument :=
  instruments.filter fun i =>
    i.name = "NIFTY" && i.instrument_type = option_type && Date.leb minExpiry i.expiry

/-- The `month_max` dictionary build: for each (year, month) key keep the
latest expiry seen (`if key not in month_max or exp > month_max[key]`). -/
def monthMaxUpdate (acc : List ((ℕ × ℕ) × Date)) (exp : Date) : List ((ℕ × ℕ) × Date) :=
  match acc with
  | [] => [((exp.y, exp.m), exp)]
  | (k, v) :: rest =>
    if k = (exp.y, exp.m) then
      if Date.ltb v exp then (k, exp) :: rest else (k, v) :: rest
    else (k, v) :: monthMaxUpdate rest exp

/-- The set of monthly expiries: latest expiry per calendar month over all
NIFTY contracts of the option type (the 30-day filter is ignored here). -/
def monthlyExpiries (instruments : List Instrument) (option_type : String) : List Date :=
  let all_expiries :=
    (instruments.filter fun i => i.name = "NIFTY" && i.instrument_type = option_type).map
      (fun i => i.expiry)
  (all_expiries.foldl monthMaxUpdate []).map (fun kv => kv.2)

/-- Python `min` over a nonempty list of dates (first minimum kept; ties
are equal values). -/
def dateListMin (d : Date) (l : List Date) : Date :=
  l.foldl (fun acc e => if Date.ltb e acc then e else acc) d

/-- The strike ladder (`candidates`): monthly-expiry contracts (falling
back to `all_opts` when no monthly expiry survives the 30-day filter)
restricted to the nearest upcoming expiry.  Empty when `all_opts` is
empty — the source returns failure before reaching this point — or in the
unreachable `min([])` case, where the source raises and the surrounding
`except` returns failure. -/
def niftyLadder (instruments : List Instrument) (minExpiry : Date)
    (option_type : String) : List Instrument :=
  let all_opts := niftyAllOpts instruments minExpiry option_type
  if all_opts.isEmpty then []
  else
    let monthly := monthlyExpiries instruments option_type
    let monthly_opts := all_opts.filter fun i => decide (i.expiry ∈ monthly)
    let monthly_opts := if monthly_opts.isEmpty then all_opts else monthly_opts
    match monthly_opts with
    | [] => []
    | c :: rest =>
      let target_expiry := dateListMin c.expiry (rest.map (fun i => i.expiry))
      (c :: rest).filter fun i => decide (i.expiry = target_expiry)

/-- The best-strike scan of `select_nifty_option`: walk the ladder's LTP
data, skip non-positive premiums, and keep the strike with the strictly
smallest `|premium - target|` seen so far (the accumulator carries the
running best and its difference; `none` is Python's `best = None` /
`best_diff = inf`). -/
def bestScan (ltp : String → ℚ) (target : ℚ) :
    List Instrument → Option (Instrument × ℚ) → Option (Instrument × ℚ)
  | [], acc => acc
  | c :: rest, acc =>
    let premium := ltp c.tradingsymbol
    if premium ≤ 0 then bestScan ltp target rest acc
    else
      let diff := |premium - target|
      match acc with
      | none => bestScan ltp target rest (some (c, diff))
      | some (b, bd) =>
        if diff < bd then bestScan ltp target rest (some (c, diff))
        else bestScan ltp target rest (some (b, bd))

/-- `select_nifty_option` (base_strategy.py): fail when no contract has
expiry at least 30 days out; otherwise scan the nearest monthly expiry's
strike ladder for the premium closest to the target, failing only when no
strike has a positive last-traded price.  The 20% degraded-match case only
logs a warning.  The batched LTP call is abstracted as a function from
trading symbol to last price. -/
def selectNiftyOption (instruments : List Instrument) (minExpiry : Date)
    (ltp : String → ℚ) (target_premium : ℚ) (option_type : String) : Option Instrument :=
  let all_opts := niftyAllOpts instruments minExpiry option_type
  if all_opts.isEmpty then none
  else
    match bestScan ltp target_premium (niftyLadder instruments minExpiry option_type) none with
    | none => none
    | some (best, _) => some best

theorem bestScan_none_of (ltp : String → ℚ) (target : ℚ) :
    ∀ l : List Instrument, (∀ c ∈ l, ¬ 0 < ltp c.tradingsymbol) →
      bestScan ltp target l none = none := by
  intro l
  induction l with
  | nil => intro _; rfl
  | cons c rest ih =>
    intro h
    have hc : ltp c.tradingsymbol ≤ 0 := not_lt.mp (h c (List.mem_cons_self c rest))
    simp only [bestScan, if_pos hc]
    exact ih fun x hx => h x (List.mem_cons_of_mem c hx)

theorem bestScan_spec (ltp : String → ℚ) (target : ℚ) :
    ∀ (l : List Instrument) (acc : Option (Instrument × ℚ)),
      (∀ p : Instrument × ℚ, acc = some p →
        p.2 = |ltp p.1.tradingsymbol - target| ∧ 0 < ltp p.1.tradingsymbol) →
      (bestScan ltp target l acc = none →
        acc = none ∧ ∀ c ∈ l, ¬ 0 < ltp c.tradingsymbol) ∧
      (∀ p : Instrument × ℚ, bestScan ltp target l acc = some p →
        (p.2 = |ltp p.1.tradingsymbol - target| ∧ 0 < ltp p.1.tradingsymbol) ∧
        (acc = some p ∨ p.1 ∈ l) ∧
        (∀ c ∈ l, 0 < ltp c.tradingsymbol → p.2 ≤ |ltp c.tradingsymbol - target|) ∧
        (∀ q : Instrument × ℚ, acc = some q → p.2 ≤ q.2)) := by
  intro l
  induction l with
  | nil =>
    intro acc hacc
    constructor
    · intro h
      exact ⟨h, fun c hc => absurd hc (List.not_mem_nil c)⟩
    · intro p hp
      have hap : acc = some p := hp
      refine ⟨hacc p hap, Or.inl hap, fun c hc => absurd hc (List.not_mem_nil c), ?_⟩
      intro q hq
      rw [hap] at hq
      obtain rfl : p = q := Option.some_injective _ hq
      exact le_refl _
  | cons c rest ih =>
    intro acc hacc
    by_cases hprem : ltp c.tradingsymbol ≤ 0
    · simp only [bestScan, if_pos hprem]
      obtain ⟨h1, h2⟩ := ih acc hacc
      constructor
      · intro h
        obtain ⟨ha, hall⟩ := h1 h
        refine ⟨ha, fun x hx => ?_⟩
        rcases List.mem_cons.mp hx with hx | hx
        · rw [hx]; exact not_lt.mpr hprem
        · exact hall x hx
      · intro p hp
        obtain ⟨hgood, hmem, hmin, hle⟩ := h2 p hp
        refine ⟨hgood, ?_, ?_, hle⟩
        · rcases hmem with hm | hm
          · exact Or.inl hm
          · exact Or.inr (List.mem_cons_of_mem c hm)
        · intro x hx hxpos
          rcases List.mem_cons.mp hx with hx | hx
          · rw [hx] at hxpos; exact absurd hxpos (not_lt.mpr hprem)
          · exact hmin x hx hxpos
    · push_neg at hprem
      have hposc : ¬ ltp c.tradingsymbol ≤ 0 := not_le.mpr hprem
      cases hbase : acc with
      | none =>
        simp only [bestScan, if_neg hposc, hbase]
        have haccn : ∀ p : Instrument × ℚ,
            (some (c, |ltp c.tradingsymbol - target|) : Option (Instrument × ℚ)) = some p →
            p.2 = |ltp p.1.tradingsymbol - target| ∧ 0 < ltp p.1.tradingsymbol := by
          intro p hp
          obtain rfl : (c, |ltp c.tradingsymbol - target|) = p := Option.some_injective _ hp
          exact ⟨rfl, hprem⟩
        obtain ⟨h1, h2⟩ := ih (some (c, |ltp c.tradingsymbol - target|)) haccn
        constructor
        · intro h
          obtain ⟨ha, _⟩ := h1 h
          exact absurd ha (by simp)
        · intro p hp
          obtain ⟨hgood, hmem, hmin, hle⟩ := h2 p hp
          refine ⟨hgood, ?_, ?_, ?_⟩
          · rcases hmem with hm | hm
            · obtain rfl : (c, |ltp c.tradingsymbol - target|) = p :=
                Option.some_injective _ hm
              exact Or.inr (List.mem_cons_self c rest)
            · exact Or.inr (List.mem_cons_of_mem c hm)
          · intro x hx hxpos
            rcases List.mem_cons.mp hx with hx | hx
            · rw [hx]
              exact hle (c, |ltp c.tradingsymbol - target|) rfl
            · exact hmin x hx hxpos
          · intro q hq
            exact absurd hq (by simp)
      | some bpair =>
        obtain ⟨b, bd⟩ := bpair
        obtain ⟨hbd, hbpos⟩ := hacc (b, bd) hbase
        by_cases hlt : |ltp c.tradingsymbol - target| < bd
        · simp only [bestScan, if_neg hposc, hbase, if_pos hlt]
          have haccn : ∀ p : Instrument × ℚ,
              (some (c, |ltp c.tradingsymbol - target|) : Option (Instrument × ℚ)) = some p →
              p.2 = |ltp p.1.tradingsymbol - target| ∧ 0 < ltp p.1.tradingsymbol := by
            intro p hp
            obtain rfl : (c, |ltp c.tradingsymbol - target|) = p := Option.some_injective _ hp
            exact ⟨rfl, hprem⟩
          obtain ⟨h1, h2⟩ := ih (some (c, |ltp c.tradingsymbol - target|)) haccn
          constructor
          · intro h
            obtain ⟨ha, _⟩ := h1 h
            exact absurd ha (by simp)
          · intro p hp
            obtain ⟨hgood, hmem, hmin, hle⟩ := h2 p hp
            have hpd : p.2 ≤ |ltp c.tradingsymbol - target| :=
              hle (c, |ltp c.tradingsymbol - target|) rfl
            refine ⟨hgood, ?_, ?_, ?_⟩
            · rcases hmem with hm | hm
              · obtain rfl : (c, |ltp c.tradingsymbol - target|) = p :=
                  Option.some_injective _ hm
                exact Or.inr (List.mem_cons_self c rest)
              · exact Or.inr (List.mem_cons_of_mem c hm)
            · intro x hx hxpos
              rcases List.mem_cons.mp hx with hx | hx
              · rw [hx]; exact hpd
              · exact hmin x hx hxpos
            · intro q hq
              obtain rfl : (b, bd) = q := Option.some_injective _ hq
              exact le_trans hpd (le_of_lt hlt)
        · simp only [bestScan, if_neg hposc, hbase, if_neg hlt]
          have haccn : ∀ p : Instrument × ℚ,
              (some (b, bd) : Option (Instrument × ℚ)) = some p →
              p.2 = |ltp p.1.tradingsymbol - target| ∧ 0 < ltp p.1.tradingsymbol := by
            intro p hp
            obtain rfl : (b, bd) = p := Option.some_injective _ hp
            exact ⟨hbd, hbpos⟩
          obtain ⟨h1, h2⟩ := ih (some (b, bd)) haccn
          constructor
          · intro h
            obtain ⟨ha, _⟩ := h1 h
            exact absurd ha (by simp)
          · intro p hp
            obtain ⟨hgood, hmem, hmin, hle⟩ := h2 p hp
            have hpbd : p.2 ≤ bd := hle (b, bd) rfl
            refine ⟨hgood, ?_, ?_, ?_⟩
            · rcases hmem with hm | hm
              · exact Or.inl hm
              · exact Or.inr (List.mem_cons_of_mem c hm)
            · intro x hx hxpos
              rcases List.mem_cons.mp hx with hx | hx
              · rw [hx]
                exact le_trans hpbd (not_lt.mp hlt)
              · exact hmin x hx hxpos
            · intro q hq
              obtain rfl : (b, bd) = q := Option.some_injective _ hq
              exact hpbd

/-- C5: whenever some strike of the chosen expiry's ladder has a positive
last-traded price, selection returns a positive-priced ladder strike whose
absolute premium difference to the target is minimal (the 20% degraded
match only logs); and selection fails exactly when no contract has expiry
at least `minExpiry` (30 days out) or no ladder strike has a positive
price. -/
theorem select_nifty_option_spec (instruments : List Instrument) (minExpiry : Date)
    (ltp : String → ℚ) (target_premium : ℚ) (option_type : String) :
    ((∃ c ∈ niftyLadder instruments minExpiry option_type, 0 < ltp c.tradingsymbol) →
      ∃ r, selectNiftyOption instruments minExpiry ltp target_premium option_type = some r ∧
        r ∈ niftyLadder instruments minExpiry option_type ∧
        0 < ltp r.tradingsymbol ∧
        ∀ c ∈ niftyLadder instruments minExpiry option_type, 0 < ltp c.tradingsymbol →
          |ltp r.tradingsymbol - target_premium| ≤ |ltp c.tradingsymbol - target_premium|) ∧
    (selectNiftyOption instruments minExpiry ltp target_premium option_type = none ↔
      (niftyAllOpts instruments minExpiry option_type = [] ∨
       ∀ c ∈ niftyLadder instruments minExpiry option_type, ¬ 0 < ltp c.tradingsymbol)) := by
  by_cases hA : (niftyAllOpts instruments minExpiry option_type).isEmpty
  · have hlad : niftyLadder instruments minExpiry option_type = [] := by
      unfold niftyLadder
      rw [if_pos hA]
    have hsel : selectNiftyOption instruments minExpiry ltp target_premium option_type
        = none := by
      unfold selectNiftyOption
      rw [if_pos hA]
    constructor
    · rintro ⟨c, hc, _⟩
      rw [hlad] at hc
      exact absurd hc (List.not_mem_nil c)
    · rw [hsel]
      constructor
      · intro _
        exact Or.inl (List.isEmpty_iff.mp hA)
      · intro _
        rfl
  · have hAne : niftyAllOpts instruments minExpiry option_type ≠ [] := by
      intro hh
      exact hA (by rw [hh]; rfl)
    have hsel : selectNiftyOption instruments minExpiry ltp target_premium option_type
        = match bestScan ltp target_premium
              (niftyLadder instruments minExpiry option_type) none with
          | none => none
          | some (best, _) => some best := by
      unfold selectNiftyOption
      rw [if_neg hA]
    obtain ⟨h1, h2⟩ := bestScan_spec ltp target_premium
      (niftyLadder instruments minExpiry option_type) none
      (fun p hp => absurd hp (by simp))
    constructor
    · rintro ⟨c, hc, hcpos⟩
      cases hbs : bestScan ltp target_premium
          (niftyLadder instruments minExpiry option_type) none with
      | none =>
        obtain ⟨_, hall⟩ := h1 hbs
        exact absurd hcpos (hall c hc)
      | some p =>
        obtain ⟨b, bd⟩ := p
        obtain ⟨⟨hbd, hbpos⟩, hmem, hmin, _⟩ := h2 (b, bd) hbs
        have hbd' : bd = |ltp b.tradingsymbol - target_premium| := hbd
        have hbpos' : 0 < ltp b.tradingsymbol := hbpos
        have hmin' : ∀ x ∈ niftyLadder instruments minExpiry option_type,
            0 < ltp x.tradingsymbol → bd ≤ |ltp x.tradingsymbol - target_premium| := hmin
        rw [hbd'] at hmin'
        refine ⟨b, ?_, ?_, hbpos', hmin'⟩
        · rw [hsel, hbs]
        · rcases hmem with hm | hm
          · exact absurd hm (by simp)
          · exact hm
    · rw [hsel]
      cases hbs : bestScan ltp target_premium
          (niftyLadder instruments minExpiry option_type) none with
      | none =>
        obtain ⟨_, hall⟩ := h1 hbs
        constructor
        · intro _
          exact Or.inr hall
        · intro _
          rfl
      | some p =>
        obtain ⟨b, bd⟩ := p
        obtain ⟨⟨_, hbpos⟩, hmem, _, _⟩ := h2 (b, bd) hbs
        have hbpos' : 0 < ltp b.tradingsymbol := hbpos
        constructor
        · intro h
          exact absurd h (by simp)
        · rintro (hempty | hall)
          · exact absurd hempty hAne
          · rcases hmem with hm | hm
            · exact absurd hm (by simp)
            · exact absurd hbpos' (hall b hm)

/-- Two strikes of the November 2026 monthly expiry. -/
def instStrikeA : Instrument :=
  { name := "NIFTY", instrument_type := "CE", expiry := { y := 2026, m := 11, d := 25 }
    strike := 24000, lot_size := 75, instrument_token := 111
    tradingsymbol := "NIFTY26NOV24000CE" }

def instStrikeB : Instrument :=
  { name := "NIFTY", instrument_type := "CE", expiry := { y := 2026, m := 11, d := 25 }
    strike := 24500, lot_size := 75, instrument_token := 112
    tradingsymbol := "NIFTY26NOV24500CE" }

/-- Last-traded prices for the two strikes. -/
def ltpSample : String → ℚ := fun s =>
  if s = "NIFTY26NOV24000CE" then 900
  else if s = "NIFTY26NOV24500CE" then 1080
  else 0

def minExpirySample : Date := { y := 2026, m := 11, d := 12 }

theorem select_nifty_option_spec_witness :
    ∃ r, selectNiftyOption [instStrikeA, instStrikeB] minExpirySample ltpSample 1000 "CE"
        = some r ∧ 0 < ltpSample r.tradingsymbol := by
  obtain ⟨r, hr, _, hpos, _⟩ :=
    (select_nifty_option_spec [instStrikeA, instStrikeB] minExpirySample ltpSample
        1000 "CE").1
      ⟨instStrikeA, by decide, by norm_num [ltpSample, instStrikeA]⟩
  exact ⟨r, hr, hpos⟩

/-- Per-iteration environment of `_engine_loop`: the wall-clock `HH:MM`
string (the source compares these strings lexicographically), the
authentication status, whether `_select_instrument` would succeed and
with which symbol, and whether `_enter_position` would leave an open
position. -/
structure LoopEnv where
  now : String
  authenticated : Bool
  selectionOk : Bool
  selSymbol : String
  entryOk : Bool
deriving DecidableEq, Repr

/-- The fields of the engine read and written by `_engine_loop`: the
persisted status/symbol plus the process-local attributes (`_running`,
`_ticker`, `_pending_partial_exits`, `_reversal_in_progress`) and the
presence of an open position; the trading-window bounds come from the
settings. -/
structure LoopState where
  running : Bool
  engine_status : String
  status_message : String
  trading_symbol : String
  start_time : String
  stop_time : String
  hasTicker : Bool
  pendingPartialExits : ℤ
  reversalInProgress : Bool
  hasPosition : Bool
  entryFailures : ℕ
deriving DecidableEq, Repr

/-- One iteration of the `while self._running` body of `_engine_loop`
(strategy.py).  Returns the successor state and the number of entry
attempts made (0 or 1).  The source's `x >= y` on `HH:MM` strings is
written `¬ x < y`.  Squaring off at stop time clears the position;
`_execute_partial_exit` always consumes exactly one pending exit; a
failed entry bumps the consecutive-failure counter, a successful one
resets it. -/
def engineStep (st : LoopState) (env : LoopEnv) : LoopState × ℕ :=
  if st.running = false then (st, 0)
  else if ¬ env.now < st.stop_time then
    let st := if st.hasPosition then { st with hasPosition := false } else st
    ({ st with hasTicker := false, engine_status := "MARKET_CLOSED"
               status_message := "Market closed", running := false }, 0)
  else if env.now < st.start_time then
    (if st.engine_status ≠ "WAITING" then
       { st with engine_status := "WAITING", status_message := "Waiting for market open" }
     else st, 0)
  else if env.authenticated = false then
    ({ st with engine_status := "STOPPED", status_message := "Not authenticated"
               running := false }, 0)
  else
    let st := if st.engine_status ≠ "ACTIVE" then
        { st with engine_status := "ACTIVE"
                  status_message :=
                    if st.trading_symbol ≠ "" then "Trading " ++ st.trading_symbol
                    else "Active" }
      else st
    if st.trading_symbol = "" ∧ env.selectionOk = false then
      ({ st with engine_status := "STOPPED"
                 status_message := "Instrument selection failed", running := false }, 0)
    else
      let st := if st.trading_symbol = "" then { st with trading_symbol := env.selSymbol }
        else st
      let st := if st.trading_symbol ≠ "" then
          { st with status_message := "Trading " ++ st.trading_symbol }
        else st
      let st := if st.hasTicker = false then { st with hasTicker := true } else st
      if 0 < st.pendingPartialExits then
        ({ st with pendingPartialExits := st.pendingPartialExits - 1 }, 0)
      else if st.hasPosition = false ∧ st.reversalInProgress = false then
        if 5 ≤ st.entryFailures then
          ({ st with engine_status := "STOPPED", status_message := "Entry failed 5 times"
                     running := false }, 0)
        else if env.entryOk then
          ({ st with hasPosition := true, entryFailures := 0 }, 1)
        else
          ({ st with entryFailures := st.entryFailures + 1 }, 1)
      else (st, 0)

/-- `_engine_loop` over a finite trace of per-iteration environments,
accumulating the entry-attempt count. -/
def engineRun (st : LoopState) : List LoopEnv → LoopState × ℕ
  | [] => (st, 0)
  | env :: rest =>
    let r := engineStep st env
    let r2 := engineRun r.1 rest
    (r2.1, r.2 + r2.2)

theorem engineStep_dead (st : LoopState) (env : LoopEnv) (h : st.running = false) :
    engineStep st env = (st, 0) := by
  simp [engineStep, h]

theorem engineRun_dead (st : LoopState) (h : st.running = false) :
    ∀ envs : List LoopEnv, engineRun st envs = (st, 0) := by
  intro envs
  induction envs with
  | nil => rfl
  | cons e rest ih =>
    simp only [engineRun, engineStep_dead st e h, ih]

theorem engineStep_failed_entry (st : LoopState) (env : LoopEnv)
    (hr : st.running = true) (hsym : st.trading_symbol ≠ "")
    (hpend : st.pendingPartialExits ≤ 0) (hrev : st.reversalInProgress = false)
    (hpos : st.hasPosition = false) (hfail : st.entryFailures < 5)
    (h1 : ¬ env.now < st.start_time) (h2 : env.now < st.stop_time)
    (hauth : env.authenticated = true) (hent : env.entryOk = false) :
    (engineStep st env).2 = 1 ∧
    (engineStep st env).1.running = true ∧
    (engineStep st env).1.trading_symbol = st.trading_symbol ∧
    (engineStep st env).1.pendingPartialExits = st.pendingPartialExits ∧
    (engineStep st env).1.reversalInProgress = false ∧
    (engineStep st env).1.hasPosition = false ∧
    (engineStep st env).1.entryFailures = st.entryFailures + 1 ∧
    (engineStep st env).1.start_time = st.start_time ∧
    (engineStep st env).1.stop_time = st.stop_time := by
  have hnp : ¬ 0 < st.pendingPartialExits := not_lt.mpr hpend
  have hnf : ¬ 5 ≤ st.entryFailures := not_le.mpr hfail
  by_cases hst : st.engine_status = "ACTIVE" <;> by_cases ht : st.hasTicker = false <;>
    simp [engineStep, hr, hsym, hrev, hpos, hent, h1, h2, hauth, hnp, hnf, hst, ht]

theorem engineStep_gives_up (st : LoopState) (env : LoopEnv)
    (hr : st.running = true) (hsym : st.trading_symbol ≠ "")
    (hpend : st.pendingPartialExits ≤ 0) (hrev : st.reversalInProgress = false)
    (hpos : st.hasPosition = false) (hfail : 5 ≤ st.entryFailures)
    (h1 : ¬ env.now < st.start_time) (h2 : env.now < st.stop_time)
    (hauth : env.authenticated = true) :
    (engineStep st env).2 = 0 ∧
    (engineStep st env).1.engine_status = "STOPPED" ∧
    (engineStep st env).1.status_message = "Entry failed 5 times" ∧
    (engineStep st env).1.running = false := by
  have hnp : ¬ 0 < st.pendingPartialExits := not_lt.mpr hpend
  by_cases hst : st.engine_status = "ACTIVE" <;> by_cases ht : st.hasTicker = false <;>
    simp [engineStep, hr, hsym, hrev, hpos, h1, h2, hauth, hnp, hfail, hst, ht]

theorem engineStep_entry_success (st : LoopState) (env : LoopEnv)
    (hr : st.running = true) (hsym : st.trading_symbol ≠ "")
    (hpend : st.pendingPartialExits ≤ 0) (hrev : st.reversalInProgress = false)
    (hpos : st.hasPosition = false) (hfail : st.entryFailures < 5)
    (h1 : ¬ env.now < st.start_time) (h2 : env.now < st.stop_time)
    (hauth : env.authenticated = true) (hent : env.entryOk = true) :
    (engineStep st env).1.entryFailures = 0 ∧
    (engineStep st env).1.hasPosition = true ∧
    (engineStep st env).2 = 1 := by
  have hnp : ¬ 0 < st.pendingPartialExits := not_lt.mpr hpend
  have hnf : ¬ 5 ≤ st.entryFailures := not_le.mpr hfail
  by_cases hst : st.engine_status = "ACTIVE" <;> by_cases ht : st.hasTicker = false <;>
    simp [engineStep, hr, hsym, hrev, hpos, hent, h1, h2, hauth, hnp, hnf, hst, ht]

theorem engineRun_all_fail :
    ∀ (envs : List LoopEnv) (st : LoopState),
      st.running = true → st.trading_symbol ≠ "" → st.pendingPartialExits ≤ 0 →
      st.reversalInProgress = false → st.hasPosition = false →
      st.entryFailures ≤ 5 →
      (∀ e ∈ envs, ¬ e.now < st.start_time ∧ e.now < st.stop_time ∧
        e.authenticated = true ∧ e.entryOk = false) →
      6 - st.entryFailures ≤ envs.length →
      (engineRun st envs).1.engine_status = "STOPPED" ∧
      (engineRun st envs).1.status_message = "Entry failed 5 times" ∧
      (engineRun st envs).1.running = false ∧
      (engineRun st envs).2 = 5 - st.entryFailures := by
  intro envs
  induction envs with
  | nil =>
    intro st _ _ _ _ _ hle _ hlen
    exfalso
    simp only [List.length_nil] at hlen
    omega
  | cons e rest ih =>
    intro st hr hsym hpend hrev hpos hle henv hlen
    obtain ⟨he1, he2, he3, he4⟩ := henv e (List.mem_cons_self e rest)
    have hlen' : 6 - st.entryFailures ≤ rest.length + 1 := by
      simpa using hlen
    have hrunEq : engineRun st (e :: rest)
        = ((engineRun (engineStep st e).1 rest).1,
           (engineStep st e).2 + (engineRun (engineStep st e).1 rest).2) := rfl
    by_cases hf : st.entryFailures < 5
    · obtain ⟨ha, hb, hc, hd, hhe, hhf, hg, hh, hi⟩ :=
        engineStep_failed_entry st e hr hsym hpend hrev hpos hf he1 he2 he3 he4
      have ihres := ih (engineStep st e).1 hb (by rw [hc]; exact hsym)
        (by rw [hd]; exact hpend) hhe hhf (by rw [hg]; omega)
        (fun e2 he2m => by
          obtain ⟨x1, x2, x3, x4⟩ := henv e2 (List.mem_cons_of_mem e he2m)
          refine ⟨?_, ?_, x3, x4⟩
          · rw [hh]; exact x1
          · rw [hi]; exact x2)
        (by rw [hg]; omega)
      rw [hrunEq]
      refine ⟨ihres.1, ihres.2.1, ihres.2.2.1, ?_⟩
      rw [ha, ihres.2.2.2, hg]
      omega
    · have hf5 : 5 ≤ st.entryFailures := by omega
      obtain ⟨ha, hb, hc, hd⟩ :=
        engineStep_gives_up st e hr hsym hpend hrev hpos hf5 he1 he2 he3
      have hdead := engineRun_dead (engineStep st e).1 hd rest
      rw [hrunEq, hdead]
      refine ⟨hb, hc, hd, ?_⟩
      rw [ha]
      omega

/-- C9: from a trading-ready state with a zero consecutive-failure count,
any run in which every iteration is inside the trading window,
authenticated, position-free, and fails its entry attempt reaches
`STOPPED` with the "Entry failed 5 times" message after exactly 5 entry
attempts — the 6th iteration stops the engine without attempting — and,
conversely, one successful entry resets the consecutive-failure counter
to zero. -/
theorem entry_failures_stop_engine :
    (∀ (st : LoopState) (envs : List LoopEnv),
      st.running = true → st.trading_symbol ≠ "" → st.pendingPartialExits ≤ 0 →
      st.reversalInProgress = false → st.hasPosition = false → st.entryFailures = 0 →
      (∀ e ∈ envs, ¬ e.now < st.start_time ∧ e.now < st.stop_time ∧
        e.authenticated = true ∧ e.entryOk = false) →
      6 ≤ envs.length →
      (engineRun st envs).1.engine_status = "STOPPED" ∧
      (engineRun st envs).1.status_message = "Entry failed 5 times" ∧
      (engineRun st envs).1.running = false ∧
      (engineRun st envs).2 = 5) ∧
    (∀ (st : LoopState) (env : LoopEnv),
      st.running = true → st.trading_symbol ≠ "" → st.pendingPartialExits ≤ 0 →
      st.reversalInProgress = false → st.hasPosition = false → st.entryFailures < 5 →
      ¬ env.now < st.start_time → env.now < st.stop_time → env.authenticated = true →
      env.entryOk = true →
      (engineStep st env).1.entryFailures = 0 ∧
      (engineStep st env).1.hasPosition = true) := by
  constructor
  · intro st envs hr hsym hpend hrev hpos hf henv hlen
    have h := engineRun_all_fail envs st hr hsym hpend hrev hpos (by omega) henv
      (by rw [hf]; omega)
    rw [hf] at h
    exact h
  · intro st env hr hsym hpend hrev hpos hf h1 h2 hauth hent
    obtain ⟨ha, hb, _⟩ :=
      engineStep_entry_success st env hr hsym hpend hrev hpos hf h1 h2 hauth hent
    exact ⟨ha, hb⟩

/-- A trading-ready loop state: instrument selected, feed running, no
position, no pending work, zero consecutive failures. -/
def loopReady : LoopState :=
  { running := true, engine_status := "WAITING", status_message := "Starting..."
    trading_symbol := "NIFTY26NOV24500CE", start_time := "10:00", stop_time := "15:15"
    hasTicker := true, pendingPartialExits := 0, reversalInProgress := false
    hasPosition := false, entryFailures := 0 }

/-- A mid-session iteration whose entry attempt fails (fill timeout or
rejection). -/
def envEntryFails : LoopEnv :=
  { now := "12:00", authenticated := true, selectionOk := true, selSymbol := ""
    entryOk := false }

theorem entry_failures_stop_engine_witness :
    (engineRun loopReady
        [envEntryFails, envEntryFails, envEntryFails, envEntryFails, envEntryFails,
         envEntryFails]).1.engine_status = "STOPPED" ∧
    (engineRun loopReady
        [envEntryFails, envEntryFails, envEntryFails, envEntryFails, envEntryFails,
         envEntryFails]).2 = 5 := by
  have h1 : ¬ envEntryFails.now < loopReady.start_time := by
    show ¬ ("12:00" : String) < "10:00"
    rw [String.lt_iff_toList_lt]
    decide
  have h2 : envEntryFails.now < loopReady.stop_time := by
    show ("12:00" : String) < "15:15"
    rw [String.lt_iff_toList_lt]
    decide
  have hbenign : ∀ e ∈ [envEntryFails, envEntryFails, envEntryFails, envEntryFails,
      envEntryFails, envEntryFails],
      ¬ e.now < loopReady.start_time ∧ e.now < loopReady.stop_time ∧
      e.authenticated = true ∧ e.entryOk = false := by
    intro e he
    simp only [List.mem_cons, List.not_mem_nil, or_false] at he
    rcases he with rfl | rfl | rfl | rfl | rfl | rfl <;> exact ⟨h1, h2, rfl, rfl⟩
  obtain ⟨w1, _, _, w4⟩ := entry_failures_stop_engine.1 loopReady
    [envEntryFails, envEntryFails, envEntryFails, envEntryFails, envEntryFails,
     envEntryFails]
    rfl (by decide) (by decide) rfl rfl rfl hbenign (by decide)
  exact ⟨w1, w4⟩

end Trading
